import Mathlib

/-!
# Verification of the NeuroViral-ScriptGen audio playback subsystem

Shallow embedding of the audio playback / synchronization subsystem of the
`ScriptSegmentCard` component (src/components/ScriptSegmentCard.tsx, with the
variant in src/unnamed/part_002):

* the Subtitle Projector (`currentWordIndex`),
* the PCM decoder pipeline (`base64ToBytes`, `pcmToAudioBuffer`),
* the per-segment Playback Controller state machine together with the global
  playback coordinator slot (`activeStopCallback`), modelled as a transition
  system over an indexed family of controller states.

Machine numbers are modelled with `Nat` / `Int` / `ℚ`; JavaScript `number`
arithmetic on the (exactly representable) values involved is mirrored by exact
rational arithmetic.
-/

namespace NeuroViral

/-! ## Subtitle Projector

Source (ScriptSegmentCard.tsx, lines 164-168):
```
const words = segment.text.split(' ');
const currentWordIndex = Math.min(
  Math.floor((progress / 100) * words.length),
  words.length - 1
);
```
`progress` ranges over 0..100.  We keep the result in `ℤ` so that the clamp
against `words.length - 1` is modelled exactly as in JavaScript. -/

def currentWordIndex (progress : ℚ) (wordCount : ℕ) : ℤ :=
  min ⌊(progress / 100) * (wordCount : ℚ)⌋ ((wordCount : ℤ) - 1)

/-! ## Base64 (model of `btoa` output format / `atob`)

`base64ToBytes` in the source decodes with `atob` and copies the character
codes of the resulting binary string into a `Uint8Array`:
```
const base64ToBytes = (base64: string): Uint8Array => {
  const binaryString = atob(base64);
  ...
  bytes[i] = binaryString.charCodeAt(i);
```
We model a byte string as `List ℕ` (each element < 256) and a base64 text as
`List Char`.  `base64Encode` is the canonical padded base64 encoding (the
format produced by `btoa`, used by the round-trip property); `base64ToBytes`
models `atob` on canonical padded input followed by the byte copy. -/

def b64Char (n : ℕ) : Char :=
  if n < 26 then Char.ofNat (65 + n)
  else if n < 52 then Char.ofNat (97 + (n - 26))
  else if n < 62 then Char.ofNat (48 + (n - 52))
  else if n = 62 then '+'
  else '/'

def b64Val (c : Char) : Option ℕ :=
  let n := c.toNat
  if 65 ≤ n ∧ n ≤ 90 then some (n - 65)
  else if 97 ≤ n ∧ n ≤ 122 then some (n - 97 + 26)
  else if 48 ≤ n ∧ n ≤ 57 then some (n - 48 + 52)
  else if n = 43 then some 62
  else if n = 47 then some 63
  else none

def base64Encode : List ℕ → List Char
  | [] => []
  | [b0] => [b64Char (b0 / 4), b64Char (b0 % 4 * 16), '=', '=']
  | [b0, b1] => [b64Char (b0 / 4), b64Char (b0 % 4 * 16 + b1 / 16),
      b64Char (b1 % 16 * 4), '=']
  | b0 :: b1 :: b2 :: rest =>
      b64Char (b0 / 4) :: b64Char (b0 % 4 * 16 + b1 / 16) ::
      b64Char (b1 % 16 * 4 + b2 / 64) :: b64Char (b2 % 64) :: base64Encode rest

def base64ToBytes : List Char → Option (List ℕ)
  | [] => some []
  | c0 :: c1 :: c2 :: c3 :: rest =>
      (b64Val c0).bind fun s0 =>
      (b64Val c1).bind fun s1 =>
      if c2 = '=' ∧ c3 = '=' ∧ rest = [] then
        some [s0 * 4 + s1 / 16]
      else if c3 = '=' ∧ rest = [] then
        (b64Val c2).bind fun s2 =>
        some [s0 * 4 + s1 / 16, s1 % 16 * 16 + s2 / 4]
      else
        (b64Val c2).bind fun s2 =>
        (b64Val c3).bind fun s3 =>
        (base64ToBytes rest).bind fun bs =>
        some ((s0 * 4 + s1 / 16) :: (s1 % 16 * 16 + s2 / 4) ::
          (s2 % 4 * 64 + s3) :: bs)
  | _ => none

/-! ## PCM decoder

Source (ScriptSegmentCard.tsx, lines 256-265):
```
const pcmToAudioBuffer = (data: Uint8Array, ctx: AudioContext): AudioBuffer => {
  const dataInt16 = new Int16Array(data.buffer, data.byteOffset, data.byteLength / 2);
  const frameCount = dataInt16.length;
  const buffer = ctx.createBuffer(1, frameCount, 24000);
  const channelData = buffer.getChannelData(0);
  for (let i = 0; i < frameCount; i++) {
    channelData[i] = dataInt16[i] / 32768.0;
  }
  return buffer;
};
```
The `Int16Array` constructor converts `data.byteLength / 2` with `ToIndex`,
which truncates a fractional length (an odd trailing byte is dropped, no
exception); `ctx.createBuffer(1, 0, 24000)` throws for `frameCount = 0`, the
only failure of this function, modelled by `none`.  Typed arrays are
little-endian on every supported platform, so byte pair `(lo, hi)` is the
signed 16-bit value `lo + hi*256` interpreted in two's complement. -/

def bytesToInt16 (lo hi : ℕ) : ℤ :=
  let u := lo + hi * 256
  if u < 32768 then (u : ℤ) else (u : ℤ) - 65536

def pcmSamples : List ℕ → List ℚ
  | [] => []
  | [_] => []
  | lo :: hi :: rest => (bytesToInt16 lo hi : ℚ) / 32768 :: pcmSamples rest

structure AudioBuffer where
  numberOfChannels : ℕ
  sampleRate : ℕ
  channelData : List ℚ
  deriving DecidableEq

def AudioBuffer.duration (b : AudioBuffer) : ℚ :=
  (b.channelData.length : ℚ) / (b.sampleRate : ℚ)

def pcmToAudioBuffer (data : List ℕ) : Option AudioBuffer :=
  let frameCount := data.length / 2
  if frameCount = 0 then none
  else some ⟨1, 24000, pcmSamples data⟩

/-- The full decoding pipeline of `toggleAudio`:
`base64ToBytes` followed by `pcmToAudioBuffer`. -/
def decodeBase64Pcm (text : List Char) : Option AudioBuffer :=
  (base64ToBytes text).bind pcmToAudioBuffer

/-- Little-endian two's-complement byte encoding of a signed 16-bit sample
(the wire format the external speech engine produces and the spec's
"little-endian byte representation" of a sample). -/
def int16LEBytes (v : ℤ) : List ℕ :=
  let u := (v % 65536).toNat
  [u % 256, u / 256]

/-! ## Playback Controller and Global Playback Coordinator

Per-card React state of `ScriptSegmentCard` (lines 143-156) relevant to
playback, plus the module-level coordinator slot `activeStopCallback`
(line 40).  Refs holding audio objects (`sourceRef`, `bgMusicControlRef`,
`rafRef`) are modelled by `Bool` flags recording whether a live object is
present; a decoded `AudioBuffer` is represented by its frame count; the
in-flight `await generateSpeech` suspension of `toggleAudio` is recorded by
the `pending` flag. -/

structure Ctrl where
  isPlaying : Bool
  isLoadingAudio : Bool
  audioBuffer : Option ℕ
  progress : ℚ
  audioDuration : ℚ
  isBgMusicOn : Bool
  sourceRef : Bool
  bgMusicRef : Bool
  rafRef : Bool
  pending : Bool
  deriving DecidableEq

/-- Initial `useState` values of a freshly mounted card
(`useState(false)`, `useState(false)`, `useState<AudioBuffer|null>(null)`,
`useState(0)`, `useState(0)`, `useState(true)`, refs `null`). -/
def initCtrl : Ctrl :=
  { isPlaying := false, isLoadingAudio := false, audioBuffer := none
    progress := 0, audioDuration := 0, isBgMusicOn := true
    sourceRef := false, bgMusicRef := false, rafRef := false, pending := false }

/-- Whole-process state: one `Ctrl` per mounted segment card (indexed by `ι`)
plus the module-level `activeStopCallback` slot, which holds the identity of
the controller whose `stopAudio` closure is registered. -/
structure Sys (ι : Type) where
  ctrls : ι → Ctrl
  activeStop : Option ι

variable {ι : Type} [DecidableEq ι]

def initSys (ι : Type) : Sys ι := ⟨fun _ => initCtrl, none⟩

/-- Update a single controller's state. -/
def updC (s : Sys ι) (i : ι) (f : Ctrl → Ctrl) : Sys ι :=
  { s with ctrls := Function.update s.ctrls i (f (s.ctrls i)) }

/-- `stopAudio` (lines 211-226): stop and drop the source node, stop and drop
the ambience handle, cancel the progress frame, `setIsPlaying(false)`,
`setProgress(0)`.  It does not touch `activeStopCallback` (callers do), nor
`isLoadingAudio`, the cached buffer, or an in-flight generation request. -/
def stopAudioC (c : Ctrl) : Ctrl :=
  { c with sourceRef := false, bgMusicRef := false, rafRef := false
           isPlaying := false, progress := 0 }

def stopAudioS (i : ι) (s : Sys ι) : Sys ι := updC s i stopAudioC

/-- One invocation of `updateProgress` (lines 228-244) at elapsed time `e`:
returns unless a source is live; with positive duration sets
`progress := min (e / duration * 100) 100`, reschedules itself while
`e < duration` and otherwise pins progress at 100 without rescheduling
(`rafRef = false` models "no further frame is scheduled"). -/
def updateProgressC (e : ℚ) (c : Ctrl) : Ctrl :=
  if c.sourceRef = false then c
  else if 0 < c.audioDuration then
    if e < c.audioDuration then
      { c with progress := min (e / c.audioDuration * 100) 100, rafRef := true }
    else
      { c with progress := 100, rafRef := false }
  else c

/-- Lines 294-324 of `toggleAudio`, entered with a decoded buffer of `frames`
frames in hand: `setAudioDuration`, start ambience when `isBgMusicOn` (line
299; when music is off an existing handle is left untouched), create, connect
and start the source node, record the start time and run `updateProgress`
once at elapsed time 0. -/
def startPlayback (i : ι) (frames : ℕ) (s : Sys ι) : Sys ι :=
  updC s i fun c =>
    updateProgressC 0
      { c with audioDuration := (frames : ℚ) / 24000
               bgMusicRef := if c.isBgMusicOn then true else c.bgMusicRef
               sourceRef := true }

/-- The synchronous prefix of `toggleAudio` (lines 267-296), up to either the
early return, the `await generateSpeech` suspension point (no cached buffer:
`pending := true`), or — when a cached buffer exists — straight through
`startPlayback`.

* If `isPlaying`: `stopAudio()`, clear `activeStopCallback` if it is this
  card's, return.
* Otherwise: invoke `activeStopCallback` (the registered card's `stopAudio`)
  if one is set, register this card, `setIsPlaying(true)`, then branch on the
  cached buffer. -/
def toggleAudioF (i : ι) (s : Sys ι) : Sys ι :=
  if (s.ctrls i).isPlaying then
    let s1 := stopAudioS i s
    { s1 with activeStop := if s1.activeStop = some i then none else s1.activeStop }
  else
    let s1 := match s.activeStop with
      | some j => stopAudioS j s
      | none => s
    let s2 : Sys ι := { s1 with activeStop := some i }
    let s3 := updC s2 i fun c => { c with isPlaying := true }
    match (s3.ctrls i).audioBuffer with
    | none => updC s3 i fun c => { c with isLoadingAudio := true, pending := true }
    | some frames => startPlayback i frames s3

/-- The continuation of `toggleAudio` after `await generateSpeech` resolves
successfully and the payload decodes to a buffer of `frames ≥ 1` frames
(lines 288-324): cache the buffer, `setAudioDuration`,
`setIsLoadingAudio(false)`, then start ambience/source/progress loop.  Note:
the continuation runs unconditionally — it does not re-check `isPlaying` or
whether this card still holds the coordinator slot. -/
def generationOkF (i : ι) (frames : ℕ) (s : Sys ι) : Sys ι :=
  startPlayback i frames <| updC s i fun c =>
    { c with pending := false, audioBuffer := some frames
             audioDuration := (frames : ℚ) / 24000, isLoadingAudio := false }

/-- The `catch` block of `toggleAudio` (lines 326-331), reached when
`generateSpeech` rejects (or decoding throws): `setIsPlaying(false)`,
`setIsLoadingAudio(false)`, clear `activeStopCallback` if still this card's. -/
def generationFailF (i : ι) (s : Sys ι) : Sys ι :=
  let s1 := updC s i fun c =>
    { c with pending := false, isPlaying := false, isLoadingAudio := false }
  { s1 with activeStop := if s1.activeStop = some i then none else s1.activeStop }

/-- `source.onended` (lines 308-318), fired when the buffer is exhausted (or
after the source was stopped): `setIsPlaying(false)`, drop the source ref,
`setProgress(100)`, stop and drop ambience, cancel the progress frame, clear
`activeStopCallback` if still this card's. -/
def onendedF (i : ι) (s : Sys ι) : Sys ι :=
  let s1 := updC s i fun c =>
    { c with isPlaying := false, sourceRef := false, progress := 100
             bgMusicRef := false, rafRef := false }
  { s1 with activeStop := if s1.activeStop = some i then none else s1.activeStop }

/-- The `[segment]` effect (lines 170-178): on segment content change, stop
audio if playing (note: without clearing `activeStopCallback`), discard the
cached buffer, reset duration and progress. -/
def segmentChangeF (i : ι) (s : Sys ι) : Sys ι :=
  let s1 := if (s.ctrls i).isPlaying then stopAudioS i s else s
  updC s1 i fun c => { c with audioBuffer := none, audioDuration := 0, progress := 0 }

/-- The unmount cleanup (lines 180-189) destroys the card: stop the source,
cancel the progress frame, stop ambience, clear `activeStopCallback` if this
card's.  The card's React state ceases to exist; a later mount at the same
index starts from `initCtrl`, so unmounting is modelled as resetting the
slot to `initCtrl`. -/
def unmountF (i : ι) (s : Sys ι) : Sys ι :=
  let s1 := updC s i fun _ => initCtrl
  { s1 with activeStop := if s1.activeStop = some i then none else s1.activeStop }

/-- `setIsBgMusicOn` together with its `[isBgMusicOn, isPlaying, tone]`
effect (lines 199-209): while playing, switching music on starts a fresh
ambience handle and switching it off stops the current one. -/
def setBgMusicF (i : ι) (flag : Bool) (s : Sys ι) : Sys ι :=
  let s1 := updC s i fun c => { c with isBgMusicOn := flag }
  if (s1.ctrls i).isPlaying then
    updC s1 i fun c =>
      if c.isBgMusicOn ∧ c.bgMusicRef = false then { c with bgMusicRef := true }
      else if c.isBgMusicOn = false ∧ c.bgMusicRef then { c with bgMusicRef := false }
      else c
  else s1

/-- Event-level semantics: every state mutation path of the component is a
step.  All handlers run to completion on the single-threaded main context;
the only suspension is the `await generateSpeech` point, split into the
`toggle` step (request issued, `pending`) and its `genOk` / `genFail`
continuations, which fire only while a request is in flight.  `genOk`
carries `0 < frames` because `pcmToAudioBuffer` never returns an empty
buffer.  `ended` may fire at any time a source has been started (including
after an explicit stop, since `source.stop()` also fires `onended`);
`progressTick` reruns `updateProgress` at any non-negative elapsed time
while a frame is scheduled. -/
inductive Step : Sys ι → Sys ι → Prop
  | toggle (i : ι) (s : Sys ι) : Step s (toggleAudioF i s)
  | genOk (i : ι) (frames : ℕ) (s : Sys ι) :
      (s.ctrls i).pending = true → 0 < frames → Step s (generationOkF i frames s)
  | genFail (i : ι) (s : Sys ι) :
      (s.ctrls i).pending = true → Step s (generationFailF i s)
  | ended (i : ι) (s : Sys ι) : Step s (onendedF i s)
  | segmentChange (i : ι) (s : Sys ι) : Step s (segmentChangeF i s)
  | unmount (i : ι) (s : Sys ι) : Step s (unmountF i s)
  | setBgMusic (i : ι) (flag : Bool) (s : Sys ι) : Step s (setBgMusicF i flag s)
  | progressTick (i : ι) (e : ℚ) (s : Sys ι) :
      (s.ctrls i).rafRef = true → 0 ≤ e → Step s (updC s i (updateProgressC e))

/-- States reachable from the all-idle initial state. -/
inductive Reachable : Sys ι → Prop
  | init : Reachable (initSys ι)
  | step {s t : Sys ι} : Reachable s → Step s t → Reachable t

/-- Auxiliary coordinator invariant: every controller whose `isPlaying` flag
is set is the one registered in the coordinator slot.  Since the slot holds
at most one controller, this implies the single-active-playback property. -/
def PlayingInv (s : Sys ι) : Prop :=
  ∀ i, (s.ctrls i).isPlaying = true → s.activeStop = some i

/-! ## Basic lemmas about the system model -/

theorem updC_ctrls_same (s : Sys ι) (i : ι) (f : Ctrl → Ctrl) :
    (updC s i f).ctrls i = f (s.ctrls i) := by
  simp [updC]

theorem updC_ctrls_ne (s : Sys ι) {i j : ι} (f : Ctrl → Ctrl) (h : j ≠ i) :
    (updC s i f).ctrls j = s.ctrls j := by
  simp [updC, Function.update_apply, h]

theorem updC_activeStop (s : Sys ι) (i : ι) (f : Ctrl → Ctrl) :
    (updC s i f).activeStop = s.activeStop := rfl

theorem updC_ctrls_apply (s : Sys ι) (i j : ι) (f : Ctrl → Ctrl) :
    (updC s i f).ctrls j = if j = i then f (s.ctrls i) else s.ctrls j := by
  simp [updC, Function.update_apply]

/-! ## C4: the Subtitle Projector -/

/-- C4: for every `wordCount ≥ 1` and `progressFraction ∈ [0,1]` the subtitle
projector computes `min ⌊progressFraction * wordCount⌋ (wordCount - 1)` (the
source stores progress on a 0–100 scale, hence the argument `100 * f`), the
result is a valid index `0 ≤ idx ≤ wordCount - 1`, it is non-decreasing in
the progress fraction, and at fraction `0.41` with 5 words the highlighted
index is 2. -/
theorem subtitle_highlight_index (n : ℕ) (hn : 1 ≤ n) (f f' : ℚ)
    (hf0 : 0 ≤ f) (hf1 : f ≤ 1) (hle : f ≤ f') (hf'1 : f' ≤ 1) :
    currentWordIndex (100 * f) n = min ⌊f * (n : ℚ)⌋ ((n : ℤ) - 1) ∧
    0 ≤ currentWordIndex (100 * f) n ∧
    currentWordIndex (100 * f) n ≤ (n : ℤ) - 1 ∧
    currentWordIndex (100 * f) n ≤ currentWordIndex (100 * f') n ∧
    currentWordIndex 41 5 = 2 := by
  have hdiv : ∀ g : ℚ, (100 * g) / 100 = g := fun g => by field_simp
  have hform : ∀ g : ℚ, currentWordIndex (100 * g) n = min ⌊g * (n : ℚ)⌋ ((n : ℤ) - 1) := by
    intro g; simp [currentWordIndex, hdiv]
  refine ⟨hform f, ?_, ?_, ?_, ?_⟩
  · rw [hform f]
    refine le_min (Int.floor_nonneg.mpr (mul_nonneg hf0 (by positivity))) ?_
    have : (1 : ℤ) ≤ (n : ℤ) := by exact_mod_cast hn
    omega
  · rw [hform f]; exact min_le_right _ _
  · rw [hform f, hform f']
    exact min_le_min (Int.floor_le_floor
      (mul_le_mul_of_nonneg_right hle (by positivity))) le_rfl
  · have h5 : ⌊((41 : ℚ) / 100) * 5⌋ = 2 := by
      rw [Int.floor_eq_iff]
      norm_num
    simp [currentWordIndex, h5]

/-- Witness for C4 at `n = 5`, `f = 41/100`, `f' = 1/2`. -/
theorem subtitle_highlight_index_witness :
    currentWordIndex (100 * (41 / 100)) 5 = min ⌊(41 / 100 : ℚ) * (5 : ℚ)⌋ ((5 : ℤ) - 1) ∧
    0 ≤ currentWordIndex (100 * (41 / 100)) 5 ∧
    currentWordIndex (100 * (41 / 100)) 5 ≤ (5 : ℤ) - 1 ∧
    currentWordIndex (100 * (41 / 100)) 5 ≤ currentWordIndex (100 * (1 / 2)) 5 ∧
    currentWordIndex 41 5 = 2 :=
  subtitle_highlight_index 5 (by norm_num) (41 / 100) (1 / 2)
    (by norm_num) (by norm_num) (by norm_num) (by norm_num)

/-! ## Base64 and PCM lemmas -/

theorem b64Val_b64Char_all : ∀ n < 64, b64Val (b64Char n) = some n := by decide

theorem b64Val_b64Char {n : ℕ} (h : n < 64) : b64Val (b64Char n) = some n :=
  b64Val_b64Char_all n h

theorem b64Char_ne_pad_all : ∀ n < 64, ¬b64Char n = '=' := by decide

theorem b64Char_ne_pad {n : ℕ} (h : n < 64) : ¬b64Char n = '=' :=
  b64Char_ne_pad_all n h

theorem base64_roundtrip : ∀ bs : List ℕ, (∀ b ∈ bs, b < 256) →
    base64ToBytes (base64Encode bs) = some bs
  | [], _ => rfl
  | [b0], h => by
    have hb0 : b0 < 256 := h b0 (by simp)
    rw [show base64Encode [b0] =
      [b64Char (b0 / 4), b64Char (b0 % 4 * 16), '=', '='] from rfl]
    simp only [base64ToBytes, b64Val_b64Char (show b0 / 4 < 64 by omega),
      b64Val_b64Char (show b0 % 4 * 16 < 64 by omega), Option.some_bind]
    rw [if_pos (by simp)]
    simp only [Option.some.injEq, List.cons.injEq, and_true]
    omega
  | [b0, b1], h => by
    have hb0 : b0 < 256 := h b0 (by simp)
    have hb1 : b1 < 256 := h b1 (by simp)
    rw [show base64Encode [b0, b1] =
      [b64Char (b0 / 4), b64Char (b0 % 4 * 16 + b1 / 16), b64Char (b1 % 16 * 4), '='] from rfl]
    simp only [base64ToBytes, b64Val_b64Char (show b0 / 4 < 64 by omega),
      b64Val_b64Char (show b0 % 4 * 16 + b1 / 16 < 64 by omega), Option.some_bind]
    rw [if_neg (by simp [b64Char_ne_pad (show b1 % 16 * 4 < 64 by omega)])]
    rw [if_pos (by simp)]
    simp only [b64Val_b64Char (show b1 % 16 * 4 < 64 by omega), Option.some_bind,
      Option.some.injEq, List.cons.injEq, and_true]
    constructor <;> omega
  | b0 :: b1 :: b2 :: rest, h => by
    have hb0 : b0 < 256 := h b0 (by simp)
    have hb1 : b1 < 256 := h b1 (by simp)
    have hb2 : b2 < 256 := h b2 (by simp)
    have ih := base64_roundtrip rest fun b hb => h b (by simp [hb])
    have hne : ¬b64Char (b2 % 64) = '=' := b64Char_ne_pad (by omega)
    rw [show base64Encode (b0 :: b1 :: b2 :: rest) =
      b64Char (b0 / 4) :: b64Char (b0 % 4 * 16 + b1 / 16) ::
      b64Char (b1 % 16 * 4 + b2 / 64) :: b64Char (b2 % 64) :: base64Encode rest from rfl]
    simp only [base64ToBytes, b64Val_b64Char (show b0 / 4 < 64 by omega),
      b64Val_b64Char (show b0 % 4 * 16 + b1 / 16 < 64 by omega), Option.some_bind]
    rw [if_neg (by simp [hne]), if_neg (by simp [hne])]
    simp only [b64Val_b64Char (show b1 % 16 * 4 + b2 / 64 < 64 by omega),
      b64Val_b64Char (show b2 % 64 < 64 by omega), Option.some_bind, ih,
      Option.some.injEq, List.cons.injEq, and_true]
    refine ⟨by omega, by omega, by omega⟩

theorem bytesToInt16_int16LEBytes (v : ℤ) (hlo : -32768 ≤ v) (hhi : v < 32768) :
    bytesToInt16 ((v % 65536).toNat % 256) ((v % 65536).toNat / 256) = v := by
  simp only [bytesToInt16]
  split <;> omega

theorem pcmSamples_join : ∀ samples : List ℤ,
    (∀ v ∈ samples, -32768 ≤ v ∧ v < 32768) →
    pcmSamples (samples.map int16LEBytes).flatten =
      samples.map (fun v : ℤ => (v : ℚ) / 32768)
  | [], _ => rfl
  | v :: rest, h => by
    have hv := h v (by simp)
    have ih := pcmSamples_join rest fun w hw => h w (by simp [hw])
    simp only [List.map_cons, List.flatten_cons, int16LEBytes, List.cons_append,
      List.nil_append, pcmSamples, List.cons.injEq]
    constructor
    · rw [bytesToInt16_int16LEBytes v hv.1 hv.2]
    · exact ih

theorem pcmSamples_length : ∀ bs : List ℕ, (pcmSamples bs).length = bs.length / 2
  | [] => by decide
  | [_] => by simp [pcmSamples]
  | _ :: _ :: rest => by
    have ih := pcmSamples_length rest
    simp only [pcmSamples, List.length_cons]
    omega

/-! ## C5, C6, C10: the PCM decoding pipeline -/

/-- C5: for every non-empty sequence of signed 16-bit samples, base64-encoding
their little-endian byte representation and decoding through
`base64ToBytes` / `pcmToAudioBuffer` deterministically yields a mono buffer at
24000 Hz whose `i`-th sample is exactly `original[i] / 32768` (the quotients
are dyadic rationals, exactly representable in floating point, so exact
rational equality is the "within floating-point rounding" statement). -/
theorem pcm_base64_roundtrip (samples : List ℤ) (hne : samples ≠ [])
    (hr : ∀ v ∈ samples, -32768 ≤ v ∧ v < 32768) :
    decodeBase64Pcm (base64Encode (samples.map int16LEBytes).flatten) =
      some { numberOfChannels := 1, sampleRate := 24000
             channelData := samples.map (fun v : ℤ => (v : ℚ) / 32768) } := by
  have hbytes : ∀ b ∈ (samples.map int16LEBytes).flatten, b < 256 := by
    intro b hb
    simp only [List.mem_flatten, List.mem_map] at hb
    obtain ⟨l, ⟨v, _, rfl⟩, hbl⟩ := hb
    have h0 : 0 ≤ v % 65536 := Int.emod_nonneg _ (by norm_num)
    have h1 : v % 65536 < 65536 := Int.emod_lt_of_pos _ (by norm_num)
    simp only [int16LEBytes, List.mem_cons, List.mem_singleton] at hbl
    rcases hbl with rfl | rfl | h
    · omega
    · omega
    · simp at h
  have hlen : ∀ l : List ℤ, (l.map int16LEBytes).flatten.length = 2 * l.length := by
    intro l
    induction l with
    | nil => rfl
    | cons v rest ih =>
      simp only [List.map_cons, List.flatten_cons, List.length_append,
        List.length_cons, ih, int16LEBytes, List.length_nil]
      omega
  have hpos : 0 < samples.length := List.length_pos.mpr hne
  simp only [decodeBase64Pcm, base64_roundtrip _ hbytes, Option.some_bind,
    pcmToAudioBuffer]
  rw [if_neg (by rw [hlen]; omega), pcmSamples_join samples hr]

/-- Witness for C5 at the sample list `[1, -32768, 32767]`. -/
theorem pcm_base64_roundtrip_witness :
    decodeBase64Pcm (base64Encode (([1, -32768, 32767] : List ℤ).map int16LEBytes).flatten) =
      some { numberOfChannels := 1, sampleRate := 24000
             channelData := ([1, -32768, 32767] : List ℤ).map (fun v : ℤ => (v : ℚ) / 32768) } :=
  pcm_base64_roundtrip [1, -32768, 32767] (by decide) (by decide)

/-- Counterexample to C6 as stated: the 3-byte payload `[1, 2, 3]` has a byte
length that is not a multiple of 2, yet `pcmToAudioBuffer` succeeds, producing
a one-sample buffer (the `Int16Array` length `3/2` truncates to 1 and
`createBuffer(1, 1, 24000)` is legal); the decoder does not fail on every
odd-length payload. -/
theorem pcm_odd_payload_decodes :
    pcmToAudioBuffer [1, 2, 3] =
      some { numberOfChannels := 1, sampleRate := 24000, channelData := [(513 : ℚ) / 32768] } := by
  norm_num [pcmToAudioBuffer, pcmSamples, bytesToInt16]

/-- C6 (amended): the PCM decoder fails exactly on payloads of fewer than two
bytes (the empty and the one-byte payload, where the frame count is 0 and
`createBuffer` throws); every payload of length ≥ 2 — including odd lengths,
whose trailing byte is dropped — produces a buffer. -/
theorem pcm_decode_fails_iff_short (bs : List ℕ) :
    pcmToAudioBuffer bs = none ↔ bs.length < 2 := by
  simp only [pcmToAudioBuffer]
  by_cases h : bs.length / 2 = 0
  · rw [if_pos h]; simp only [true_iff]; omega
  · rw [if_neg h]
    simp only [Option.some_ne_none, false_iff, not_lt]
    omega

/-- C10: for every payload of `n ≥ 2` bytes the decoder produces a mono
24000 Hz buffer of exactly `⌊n/2⌋` samples — a trailing odd byte is silently
dropped — whose duration is `⌊n/2⌋ / 24000` seconds. -/
theorem pcm_decode_drops_trailing_byte (bs : List ℕ) (h : 2 ≤ bs.length) :
    ∃ buf, pcmToAudioBuffer bs = some buf ∧
      buf.numberOfChannels = 1 ∧ buf.sampleRate = 24000 ∧
      buf.channelData.length = bs.length / 2 ∧
      buf.duration = ((bs.length / 2 : ℕ) : ℚ) / 24000 := by
  refine ⟨⟨1, 24000, pcmSamples bs⟩, ?_, rfl, rfl, pcmSamples_length bs, ?_⟩
  · simp only [pcmToAudioBuffer]
    rw [if_neg (by omega)]
  · simp [AudioBuffer.duration, pcmSamples_length bs]

/-- Witness for C10 at the 5-byte payload `[1, 2, 3, 4, 5]`. -/
theorem pcm_decode_drops_trailing_byte_witness :
    ∃ buf, pcmToAudioBuffer [1, 2, 3, 4, 5] = some buf ∧
      buf.numberOfChannels = 1 ∧ buf.sampleRate = 24000 ∧
      buf.channelData.length = [1, 2, 3, 4, 5].length / 2 ∧
      buf.duration = (([1, 2, 3, 4, 5].length / 2 : ℕ) : ℚ) / 24000 :=
  pcm_decode_drops_trailing_byte [1, 2, 3, 4, 5] (by decide)

/-! ## Lemmas about the controller operations -/

theorem updateProgressC_isPlaying (e : ℚ) (c : Ctrl) :
    (updateProgressC e c).isPlaying = c.isPlaying := by
  simp only [updateProgressC]; split_ifs <;> rfl

theorem updateProgressC_sourceRef (e : ℚ) (c : Ctrl) :
    (updateProgressC e c).sourceRef = c.sourceRef := by
  simp only [updateProgressC]; split_ifs <;> rfl

theorem updateProgressC_isLoadingAudio (e : ℚ) (c : Ctrl) :
    (updateProgressC e c).isLoadingAudio = c.isLoadingAudio := by
  simp only [updateProgressC]; split_ifs <;> rfl

theorem updateProgressC_audioBuffer (e : ℚ) (c : Ctrl) :
    (updateProgressC e c).audioBuffer = c.audioBuffer := by
  simp only [updateProgressC]; split_ifs <;> rfl

theorem updateProgressC_bgMusicRef (e : ℚ) (c : Ctrl) :
    (updateProgressC e c).bgMusicRef = c.bgMusicRef := by
  simp only [updateProgressC]; split_ifs <;> rfl

theorem updateProgressC_pending (e : ℚ) (c : Ctrl) :
    (updateProgressC e c).pending = c.pending := by
  simp only [updateProgressC]; split_ifs <;> rfl

theorem updateProgressC_audioDuration (e : ℚ) (c : Ctrl) :
    (updateProgressC e c).audioDuration = c.audioDuration := by
  simp only [updateProgressC]; split_ifs <;> rfl

theorem stopAudioC_isPlaying (c : Ctrl) : (stopAudioC c).isPlaying = false := rfl

theorem stopAudioC_audioBuffer (c : Ctrl) : (stopAudioC c).audioBuffer = c.audioBuffer := rfl

theorem stopAudioS_activeStop (j : ι) (s : Sys ι) :
    (stopAudioS j s).activeStop = s.activeStop := rfl

theorem stopAudioS_ctrls (j : ι) (s : Sys ι) (k : ι) :
    (stopAudioS j s).ctrls k = if k = j then stopAudioC (s.ctrls k) else s.ctrls k := by
  rw [stopAudioS, updC_ctrls_apply]
  split_ifs with h
  · rw [h]
  · rfl

theorem stopAudioS_audioBuffer (j : ι) (s : Sys ι) (i : ι) :
    ((stopAudioS j s).ctrls i).audioBuffer = (s.ctrls i).audioBuffer := by
  rw [stopAudioS_ctrls]; split_ifs <;> rfl

theorem startPlayback_activeStop (i : ι) (fr : ℕ) (s : Sys ι) :
    (startPlayback i fr s).activeStop = s.activeStop := rfl

theorem startPlayback_ctrls_ne (i : ι) (fr : ℕ) (s : Sys ι) {k : ι} (hk : k ≠ i) :
    (startPlayback i fr s).ctrls k = s.ctrls k := by
  rw [startPlayback, updC_ctrls_ne _ _ hk]

theorem startPlayback_isPlaying (i : ι) (fr : ℕ) (s : Sys ι) :
    ((startPlayback i fr s).ctrls i).isPlaying = (s.ctrls i).isPlaying := by
  rw [startPlayback, updC_ctrls_same, updateProgressC_isPlaying]

theorem startPlayback_sourceRef (i : ι) (fr : ℕ) (s : Sys ι) :
    ((startPlayback i fr s).ctrls i).sourceRef = true := by
  rw [startPlayback, updC_ctrls_same, updateProgressC_sourceRef]

theorem startPlayback_isLoadingAudio (i : ι) (fr : ℕ) (s : Sys ι) :
    ((startPlayback i fr s).ctrls i).isLoadingAudio = (s.ctrls i).isLoadingAudio := by
  rw [startPlayback, updC_ctrls_same, updateProgressC_isLoadingAudio]

theorem generationOkF_activeStop (i : ι) (fr : ℕ) (s : Sys ι) :
    (generationOkF i fr s).activeStop = s.activeStop := rfl

theorem generationOkF_ctrls_ne (i : ι) (fr : ℕ) (s : Sys ι) {k : ι} (hk : k ≠ i) :
    (generationOkF i fr s).ctrls k = s.ctrls k := by
  rw [generationOkF, startPlayback_ctrls_ne _ _ _ hk, updC_ctrls_ne _ _ hk]

theorem generationOkF_isPlaying (i : ι) (fr : ℕ) (s : Sys ι) :
    ((generationOkF i fr s).ctrls i).isPlaying = (s.ctrls i).isPlaying := by
  rw [generationOkF, startPlayback_isPlaying, updC_ctrls_same]

theorem generationOkF_sourceRef (i : ι) (fr : ℕ) (s : Sys ι) :
    ((generationOkF i fr s).ctrls i).sourceRef = true := by
  rw [generationOkF, startPlayback_sourceRef]

theorem generationOkF_isLoadingAudio (i : ι) (fr : ℕ) (s : Sys ι) :
    ((generationOkF i fr s).ctrls i).isLoadingAudio = false := by
  rw [generationOkF, startPlayback_isLoadingAudio, updC_ctrls_same]

theorem generationFailF_ctrls_same (i : ι) (s : Sys ι) :
    (generationFailF i s).ctrls i =
      { s.ctrls i with pending := false, isPlaying := false, isLoadingAudio := false } := by
  simp [generationFailF, updC_ctrls_same]

theorem generationFailF_ctrls_ne (i : ι) (s : Sys ι) {k : ι} (hk : k ≠ i) :
    (generationFailF i s).ctrls k = s.ctrls k := by
  simp [generationFailF, updC_ctrls_ne _ _ hk]

theorem generationFailF_activeStop (i : ι) (s : Sys ι) :
    (generationFailF i s).activeStop =
      if s.activeStop = some i then none else s.activeStop := rfl

theorem onendedF_ctrls_same (i : ι) (s : Sys ι) :
    (onendedF i s).ctrls i =
      { s.ctrls i with isPlaying := false, sourceRef := false, progress := 100
                       bgMusicRef := false, rafRef := false } := by
  simp [onendedF, updC_ctrls_same]

theorem onendedF_ctrls_ne (i : ι) (s : Sys ι) {k : ι} (hk : k ≠ i) :
    (onendedF i s).ctrls k = s.ctrls k := by
  simp [onendedF, updC_ctrls_ne _ _ hk]

theorem onendedF_activeStop (i : ι) (s : Sys ι) :
    (onendedF i s).activeStop =
      if s.activeStop = some i then none else s.activeStop := rfl

theorem segmentChangeF_activeStop (i : ι) (s : Sys ι) :
    (segmentChangeF i s).activeStop = s.activeStop := by
  rw [segmentChangeF]
  split_ifs <;> rfl

theorem segmentChangeF_ctrls_ne (i : ι) (s : Sys ι) {k : ι} (hk : k ≠ i) :
    (segmentChangeF i s).ctrls k = s.ctrls k := by
  rw [segmentChangeF]
  split_ifs with h
  · rw [updC_ctrls_ne _ _ hk, stopAudioS_ctrls, if_neg hk]
  · rw [updC_ctrls_ne _ _ hk]

theorem segmentChangeF_isPlaying (i : ι) (s : Sys ι) :
    ((segmentChangeF i s).ctrls i).isPlaying = false := by
  rw [segmentChangeF]
  split_ifs with h
  · rw [updC_ctrls_same]
    simp [stopAudioS_ctrls, stopAudioC]
  · rw [updC_ctrls_same]
    simpa using h

theorem unmountF_ctrls_same (i : ι) (s : Sys ι) :
    (unmountF i s).ctrls i = initCtrl := by
  simp [unmountF, updC_ctrls_same]

theorem unmountF_ctrls_ne (i : ι) (s : Sys ι) {k : ι} (hk : k ≠ i) :
    (unmountF i s).ctrls k = s.ctrls k := by
  simp [unmountF, updC_ctrls_ne _ _ hk]

theorem unmountF_activeStop (i : ι) (s : Sys ι) :
    (unmountF i s).activeStop =
      if s.activeStop = some i then none else s.activeStop := rfl

theorem setBgMusicF_activeStop (i : ι) (flag : Bool) (s : Sys ι) :
    (setBgMusicF i flag s).activeStop = s.activeStop := by
  rw [setBgMusicF]
  split_ifs <;> rfl

theorem setBgMusicF_isPlaying (i : ι) (flag : Bool) (s : Sys ι) (k : ι) :
    ((setBgMusicF i flag s).ctrls k).isPlaying = (s.ctrls k).isPlaying := by
  by_cases hk : k = i
  · subst hk
    rw [setBgMusicF]
    split_ifs with h
    · rw [updC_ctrls_same, updC_ctrls_same]
      split_ifs <;> rfl
    · rw [updC_ctrls_same]
  · rw [setBgMusicF]
    split_ifs with h
    · rw [updC_ctrls_ne _ _ hk, updC_ctrls_ne _ _ hk]
    · rw [updC_ctrls_ne _ _ hk]

theorem toggleAudioF_playing_eq {i : ι} {s : Sys ι} (hp : (s.ctrls i).isPlaying = true) :
    toggleAudioF i s =
      { stopAudioS i s with
          activeStop := if s.activeStop = some i then none else s.activeStop } := by
  simp only [toggleAudioF, hp, if_true]
  rfl

theorem toggleAudioF_idle_activeStop {i : ι} {s : Sys ι}
    (hp : (s.ctrls i).isPlaying = false) :
    (toggleAudioF i s).activeStop = some i := by
  simp only [toggleAudioF, hp, Bool.false_eq_true, if_false]
  split <;> rfl

theorem toggleAudioF_idle_isPlaying {i : ι} {s : Sys ι}
    (hp : (s.ctrls i).isPlaying = false) :
    ((toggleAudioF i s).ctrls i).isPlaying = true := by
  simp only [toggleAudioF, hp, Bool.false_eq_true, if_false]
  split
  · rw [updC_ctrls_same, updC_ctrls_same]
  · rw [startPlayback_isPlaying, updC_ctrls_same]

theorem toggleAudioF_idle_ctrls_ne {i : ι} {s : Sys ι}
    (hp : (s.ctrls i).isPlaying = false) {k : ι} (hk : k ≠ i) :
    (toggleAudioF i s).ctrls k =
      (match s.activeStop with
        | some j => stopAudioS j s
        | none => s).ctrls k := by
  simp only [toggleAudioF, hp, Bool.false_eq_true, if_false]
  split
  · rw [updC_ctrls_ne _ _ hk, updC_ctrls_ne _ _ hk]
  · rw [startPlayback_ctrls_ne _ _ _ hk, updC_ctrls_ne _ _ hk]

theorem toggleAudioF_idle_self_noBuffer {i : ι} {s : Sys ι}
    (hp : (s.ctrls i).isPlaying = false) (hbuf : (s.ctrls i).audioBuffer = none) :
    (toggleAudioF i s).ctrls i =
      { (match s.activeStop with
          | some j => (stopAudioS j s).ctrls i
          | none => s.ctrls i) with
          isPlaying := true, isLoadingAudio := true, pending := true } := by
  cases has : s.activeStop with
  | none => simp [toggleAudioF, hp, has, updC_ctrls_same, hbuf]
  | some j =>
    simp [toggleAudioF, hp, has, updC_ctrls_same, stopAudioS_audioBuffer, hbuf]

/-! ## C1: single active playback -/

theorem playingInv_step {u t : Sys ι} (hstep : Step u t) (ih : PlayingInv u) :
    PlayingInv t := by
  cases hstep with
    | toggle i u =>
      by_cases hp : (u.ctrls i).isPlaying = true
      · intro k hk
        rw [toggleAudioF_playing_eq hp] at hk ⊢
        by_cases hk' : k = i
        · subst hk'
          rw [show ({ stopAudioS k u with
              activeStop := if u.activeStop = some k then none else u.activeStop } :
              Sys ι).ctrls k = (stopAudioS k u).ctrls k from rfl,
            stopAudioS_ctrls, if_pos rfl, stopAudioC_isPlaying] at hk
          exact absurd hk (by simp)
        · rw [show ({ stopAudioS i u with
              activeStop := if u.activeStop = some i then none else u.activeStop } :
              Sys ι).ctrls k = (stopAudioS i u).ctrls k from rfl,
            stopAudioS_ctrls, if_neg hk'] at hk
          have hks := ih k hk
          rw [show ({ stopAudioS i u with
              activeStop := if u.activeStop = some i then none else u.activeStop } :
              Sys ι).activeStop = if u.activeStop = some i then none else u.activeStop
              from rfl]
          rw [if_neg (by rw [hks]; exact fun he => hk' (Option.some_inj.mp he))]
          exact hks
      · have hp' : (u.ctrls i).isPlaying = false := by
          cases hb : (u.ctrls i).isPlaying
          · rfl
          · exact absurd hb hp
        intro k hk
        rw [toggleAudioF_idle_activeStop hp']
        by_cases hk' : k = i
        · rw [hk']
        · exfalso
          rw [toggleAudioF_idle_ctrls_ne hp' hk'] at hk
          cases has : u.activeStop with
          | none =>
            rw [has] at hk
            have hik := ih k hk
            rw [has] at hik
            exact Option.noConfusion hik
          | some j =>
            rw [has] at hk
            rw [stopAudioS_ctrls] at hk
            by_cases hkj : k = j
            · rw [if_pos hkj, stopAudioC_isPlaying] at hk
              exact Bool.false_ne_true hk
            · rw [if_neg hkj] at hk
              have hik := ih k hk
              rw [has] at hik
              exact hkj (Option.some_inj.mp hik).symm
    | genOk i frames u hpend hfr =>
      intro k hk
      rw [generationOkF_activeStop]
      by_cases hk' : k = i
      · subst hk'
        rw [generationOkF_isPlaying] at hk
        exact ih k hk
      · rw [generationOkF_ctrls_ne _ _ _ hk'] at hk
        exact ih k hk
    | genFail i u hpend =>
      intro k hk
      rw [generationFailF_activeStop]
      by_cases hk' : k = i
      · subst hk'
        rw [generationFailF_ctrls_same] at hk
        exact absurd hk (by simp)
      · rw [generationFailF_ctrls_ne _ _ hk'] at hk
        have hks := ih k hk
        rw [if_neg (by rw [hks]; exact fun he => hk' (Option.some_inj.mp he))]
        exact hks
    | ended i u =>
      intro k hk
      rw [onendedF_activeStop]
      by_cases hk' : k = i
      · subst hk'
        rw [onendedF_ctrls_same] at hk
        exact absurd hk (by simp)
      · rw [onendedF_ctrls_ne _ _ hk'] at hk
        have hks := ih k hk
        rw [if_neg (by rw [hks]; exact fun he => hk' (Option.some_inj.mp he))]
        exact hks
    | segmentChange i u =>
      intro k hk
      rw [segmentChangeF_activeStop]
      by_cases hk' : k = i
      · subst hk'
        rw [segmentChangeF_isPlaying] at hk
        exact absurd hk (by simp)
      · rw [segmentChangeF_ctrls_ne _ _ hk'] at hk
        exact ih k hk
    | unmount i u =>
      intro k hk
      rw [unmountF_activeStop]
      by_cases hk' : k = i
      · subst hk'
        rw [unmountF_ctrls_same] at hk
        simp [initCtrl] at hk
      · rw [unmountF_ctrls_ne _ _ hk'] at hk
        have hks := ih k hk
        rw [if_neg (by rw [hks]; exact fun he => hk' (Option.some_inj.mp he))]
        exact hks
    | setBgMusic i flag u =>
      intro k hk
      rw [setBgMusicF_activeStop]
      rw [setBgMusicF_isPlaying] at hk
      exact ih k hk
    | progressTick i e u hraf he =>
      intro k hk
      rw [updC_activeStop]
      by_cases hk' : k = i
      · subst hk'
        rw [updC_ctrls_same, updateProgressC_isPlaying] at hk
        exact ih k hk
      · rw [updC_ctrls_ne _ _ hk'] at hk
        exact ih k hk

theorem reachable_playingInv {s : Sys ι} (h : Reachable s) : PlayingInv s := by
  induction h with
  | init =>
    intro k hk
    simp [initSys, initCtrl] at hk
  | step _ hstep ih => exact playingInv_step hstep ih

theorem startPlayback_audioDuration (i : ι) (fr : ℕ) (s : Sys ι) :
    ((startPlayback i fr s).ctrls i).audioDuration = (fr : ℚ) / 24000 := by
  rw [startPlayback, updC_ctrls_same, updateProgressC_audioDuration]

theorem startPlayback_bgMusicRef (i : ι) (fr : ℕ) (s : Sys ι) :
    ((startPlayback i fr s).ctrls i).bgMusicRef =
      if (s.ctrls i).isBgMusicOn then true else (s.ctrls i).bgMusicRef := by
  rw [startPlayback, updC_ctrls_same, updateProgressC_bgMusicRef]

theorem generationOkF_audioDuration (i : ι) (fr : ℕ) (s : Sys ι) :
    ((generationOkF i fr s).ctrls i).audioDuration = (fr : ℚ) / 24000 := by
  rw [generationOkF, startPlayback_audioDuration]

theorem generationOkF_bgMusicRef (i : ι) (fr : ℕ) (s : Sys ι) :
    ((generationOkF i fr s).ctrls i).bgMusicRef =
      if (s.ctrls i).isBgMusicOn then true else (s.ctrls i).bgMusicRef := by
  rw [generationOkF, startPlayback_bgMusicRef, updC_ctrls_same]

/-- C1: in every reachable state at most one controller is in the `Playing`
state process-wide; moreover, `toggle()` on an idle controller `b` while `a`
is `Playing` invokes the globally registered stop callback for `a` within the
same synchronous step, so the post-state has `a` `Idle` and `b` `Playing` —
`a` stops before or atomically with `b` starting. -/
theorem single_active_playback {s : Sys ι} (h : Reachable s) :
    (∀ i j, (s.ctrls i).isPlaying = true → (s.ctrls j).isPlaying = true → i = j) ∧
    (∀ a b, (s.ctrls a).isPlaying = true → (s.ctrls b).isPlaying = false →
      ((toggleAudioF b s).ctrls a).isPlaying = false ∧
      ((toggleAudioF b s).ctrls b).isPlaying = true) := by
  have inv := reachable_playingInv h
  constructor
  · intro i j hi hj
    have h1 := inv i hi
    have h2 := inv j hj
    rw [h1] at h2
    exact Option.some_inj.mp h2
  · intro a b ha hb
    have hab : a ≠ b := by
      intro he
      rw [he, hb] at ha
      exact Bool.false_ne_true ha
    refine ⟨?_, toggleAudioF_idle_isPlaying hb⟩
    rw [toggleAudioF_idle_ctrls_ne hb hab]
    have has := inv a ha
    rw [has]
    show ((stopAudioS a s).ctrls a).isPlaying = false
    rw [stopAudioS_ctrls, if_pos rfl, stopAudioC_isPlaying]

/-- Witness for C1 in the reachable state where controller `false` has been
toggled from the initial state (and is hence `Playing`). -/
theorem single_active_playback_witness :
    (∀ i j : Bool, ((toggleAudioF false (initSys Bool)).ctrls i).isPlaying = true →
      ((toggleAudioF false (initSys Bool)).ctrls j).isPlaying = true → i = j) ∧
    (∀ a b : Bool, ((toggleAudioF false (initSys Bool)).ctrls a).isPlaying = true →
      ((toggleAudioF false (initSys Bool)).ctrls b).isPlaying = false →
      ((toggleAudioF b (toggleAudioF false (initSys Bool))).ctrls a).isPlaying = false ∧
      ((toggleAudioF b (toggleAudioF false (initSys Bool))).ctrls b).isPlaying = true) :=
  single_active_playback (Reachable.step Reachable.init (Step.toggle false (initSys Bool)))

/-- C2 evidence: the failing trace.  Controller `false` toggles from `Idle`
with no cached buffer, so a generation request goes in flight; controller
`true` then toggles, which invokes the registered stop callback for `false`
(it is stopped: `isPlaying = false`, yet its request stays `pending`); when
the stale response arrives, `generationOkF` nevertheless starts the buffer
source and the ambience for the stopped controller `false` — the code does
not discard the late result (there is no staleness guard after
`await generateSpeech`). -/
theorem stale_generation_resurrects_playback :
    ((toggleAudioF true (toggleAudioF false (initSys Bool))).ctrls false).isPlaying = false ∧
    ((toggleAudioF true (toggleAudioF false (initSys Bool))).ctrls false).pending = true ∧
    ((generationOkF false 240 (toggleAudioF true (toggleAudioF false
      (initSys Bool)))).ctrls false).isPlaying = false ∧
    ((generationOkF false 240 (toggleAudioF true (toggleAudioF false
      (initSys Bool)))).ctrls false).sourceRef = true ∧
    ((generationOkF false 240 (toggleAudioF true (toggleAudioF false
      (initSys Bool)))).ctrls false).bgMusicRef = true := by
  refine ⟨by decide, by decide, ?_, generationOkF_sourceRef _ _ _, ?_⟩
  · rw [generationOkF_isPlaying]
    decide
  · rw [generationOkF_bgMusicRef]
    decide

/-- C3: when `generateSpeech` rejects during a `toggle()` issued from `Idle`
(a state with the request `pending` and no audio nodes from this attempt),
the catch handler leaves the controller `Idle` and not `Loading`
(`isPlaying = false`, `isLoadingAudio = false`), not holding the coordinator
slot, and with no dangling source or ambience nodes. -/
theorem generation_failure_reverts_to_idle (s : Sys ι) (i : ι)
    (hpend : (s.ctrls i).pending = true)
    (hsrc : (s.ctrls i).sourceRef = false) (hbg : (s.ctrls i).bgMusicRef = false) :
    ((generationFailF i s).ctrls i).isPlaying = false ∧
    ((generationFailF i s).ctrls i).isLoadingAudio = false ∧
    (generationFailF i s).activeStop ≠ some i ∧
    ((generationFailF i s).ctrls i).sourceRef = false ∧
    ((generationFailF i s).ctrls i).bgMusicRef = false := by
  rw [generationFailF_ctrls_same, generationFailF_activeStop]
  refine ⟨rfl, rfl, ?_, hsrc, hbg⟩
  split_ifs with h
  · exact fun hc => Option.noConfusion hc
  · exact h

/-- Witness for C3: controller `false` right after its `toggle()` from the
initial state, with the generation request in flight. -/
theorem generation_failure_reverts_to_idle_witness :
    ((generationFailF false (toggleAudioF false (initSys Bool))).ctrls false).isPlaying = false ∧
    ((generationFailF false (toggleAudioF false (initSys Bool))).ctrls false).isLoadingAudio = false ∧
    (generationFailF false (toggleAudioF false (initSys Bool))).activeStop ≠ some false ∧
    ((generationFailF false (toggleAudioF false (initSys Bool))).ctrls false).sourceRef = false ∧
    ((generationFailF false (toggleAudioF false (initSys Bool))).ctrls false).bgMusicRef = false :=
  generation_failure_reverts_to_idle _ false (by decide) (by decide) (by decide)

/-- C7: on natural end of playback.  When the progress loop observes
`elapsed ≥ durationSeconds` (with a live source and positive duration) it
pins progress at exactly 100% and does not reschedule itself; and the
`onended` handler — with no explicit `stop()` call — leaves the controller
with progress 100%, `Idle`, no source, no ambience, no scheduled frame, and
not holding the coordinator slot. -/
theorem natural_end_auto_cleanup (s : Sys ι) (i : ι) (e : ℚ)
    (hsrc : (s.ctrls i).sourceRef = true)
    (hd : 0 < (s.ctrls i).audioDuration)
    (he : (s.ctrls i).audioDuration ≤ e) :
    (updateProgressC e (s.ctrls i)).progress = 100 ∧
    (updateProgressC e (s.ctrls i)).rafRef = false ∧
    ((onendedF i s).ctrls i).progress = 100 ∧
    ((onendedF i s).ctrls i).isPlaying = false ∧
    ((onendedF i s).ctrls i).sourceRef = false ∧
    ((onendedF i s).ctrls i).bgMusicRef = false ∧
    ((onendedF i s).ctrls i).rafRef = false ∧
    (onendedF i s).activeStop ≠ some i := by
  have hup : updateProgressC e (s.ctrls i) =
      { s.ctrls i with progress := 100, rafRef := false } := by
    unfold updateProgressC
    rw [if_neg (by rw [hsrc]; simp), if_pos hd, if_neg (not_lt.mpr he)]
  rw [hup, onendedF_ctrls_same, onendedF_activeStop]
  refine ⟨rfl, rfl, rfl, rfl, rfl, rfl, rfl, ?_⟩
  split_ifs with h
  · exact fun hc => Option.noConfusion hc
  · exact h

/-- Witness for C7: controller `false` playing a 240-frame buffer
(duration 1/100 s) sampled at elapsed time 1 s. -/
theorem natural_end_auto_cleanup_witness :
    (updateProgressC 1 ((generationOkF false 240 (toggleAudioF false
      (initSys Bool))).ctrls false)).progress = 100 ∧
    (updateProgressC 1 ((generationOkF false 240 (toggleAudioF false
      (initSys Bool))).ctrls false)).rafRef = false ∧
    ((onendedF false (generationOkF false 240 (toggleAudioF false
      (initSys Bool)))).ctrls false).progress = 100 ∧
    ((onendedF false (generationOkF false 240 (toggleAudioF false
      (initSys Bool)))).ctrls false).isPlaying = false ∧
    ((onendedF false (generationOkF false 240 (toggleAudioF false
      (initSys Bool)))).ctrls false).sourceRef = false ∧
    ((onendedF false (generationOkF false 240 (toggleAudioF false
      (initSys Bool)))).ctrls false).bgMusicRef = false ∧
    ((onendedF false (generationOkF false 240 (toggleAudioF false
      (initSys Bool)))).ctrls false).rafRef = false ∧
    (onendedF false (generationOkF false 240 (toggleAudioF false
      (initSys Bool)))).activeStop ≠ some false :=
  natural_end_auto_cleanup _ false 1 (generationOkF_sourceRef _ _ _)
    (by rw [generationOkF_audioDuration]; norm_num)
    (by rw [generationOkF_audioDuration]; norm_num)

/-- Counterexample to C8 as stated: immediately after `toggle()` from the
initial state, the controller is in the `Loading` phase (`isLoadingAudio =
true`, request in flight) yet its `isPlaying` flag is already `true` —
`setIsPlaying(true)` runs before the `await generateSpeech` suspension, so
the controller is not "in the Loading state and not in the Playing state". -/
theorem loading_state_counterexample :
    ((toggleAudioF false (initSys Bool)).ctrls false).isLoadingAudio = true ∧
    ((toggleAudioF false (initSys Bool)).ctrls false).pending = true ∧
    ((toggleAudioF false (initSys Bool)).ctrls false).isPlaying = true := by
  decide

/-- C8 (amended): `toggle()` from `Idle` with no cached buffer sets
`isPlaying` immediately — before and during the `Loading` phase both
`isPlaying` and `isLoadingAudio` are `true` — while actual buffer playback
(the source node) starts only after the generation step completes, at which
point `isLoadingAudio` is cleared. -/
theorem toggle_sets_playing_during_loading (s : Sys ι) (i : ι)
    (hp : (s.ctrls i).isPlaying = false)
    (hbuf : (s.ctrls i).audioBuffer = none)
    (hsrc : (s.ctrls i).sourceRef = false) :
    ((toggleAudioF i s).ctrls i).isPlaying = true ∧
    ((toggleAudioF i s).ctrls i).isLoadingAudio = true ∧
    ((toggleAudioF i s).ctrls i).sourceRef = false ∧
    ∀ frames : ℕ,
      ((generationOkF i frames (toggleAudioF i s)).ctrls i).sourceRef = true ∧
      ((generationOkF i frames (toggleAudioF i s)).ctrls i).isLoadingAudio = false := by
  refine ⟨toggleAudioF_idle_isPlaying hp, ?_, ?_,
    fun fr => ⟨generationOkF_sourceRef _ _ _, generationOkF_isLoadingAudio _ _ _⟩⟩
  · rw [toggleAudioF_idle_self_noBuffer hp hbuf]
  · rw [toggleAudioF_idle_self_noBuffer hp hbuf]
    cases has : s.activeStop with
    | none => exact hsrc
    | some j =>
      show ((stopAudioS j s).ctrls i).sourceRef = false
      rw [stopAudioS_ctrls]
      split_ifs with h
      · rfl
      · exact hsrc

/-- Witness for C8 (amended) at controller `false` of the initial state. -/
theorem toggle_sets_playing_during_loading_witness :
    ((toggleAudioF false (initSys Bool)).ctrls false).isPlaying = true ∧
    ((toggleAudioF false (initSys Bool)).ctrls false).isLoadingAudio = true ∧
    ((toggleAudioF false (initSys Bool)).ctrls false).sourceRef = false ∧
    ∀ frames : ℕ,
      ((generationOkF false frames (toggleAudioF false (initSys Bool))).ctrls false).sourceRef = true ∧
      ((generationOkF false frames (toggleAudioF false (initSys Bool))).ctrls false).isLoadingAudio = false :=
  toggle_sets_playing_during_loading _ false (by decide) (by decide) (by decide)

/-- Counterexample to C9 as stated: after natural end of playback the
controller is `Idle` with progress pinned at 100%; invoking `stopAudio` on
this already-idle controller resets progress to 0 — an observable state
change, so idle-stop is not a complete no-op.  The pre-state is reachable
(`init → toggle → generation success → natural end`). -/
theorem stop_on_idle_counterexample :
    ((onendedF false (generationOkF false 240 (toggleAudioF false
      (initSys Bool)))).ctrls false).isPlaying = false ∧
    ((onendedF false (generationOkF false 240 (toggleAudioF false
      (initSys Bool)))).ctrls false).progress = 100 ∧
    ((stopAudioS false (onendedF false (generationOkF false 240 (toggleAudioF false
      (initSys Bool))))).ctrls false).progress = 0 ∧
    Reachable (onendedF false (generationOkF false 240 (toggleAudioF false
      (initSys Bool)))) := by
  refine ⟨?_, ?_, ?_, ?_⟩
  · rw [onendedF_ctrls_same]
  · rw [onendedF_ctrls_same]
  · rw [stopAudioS_ctrls, if_pos rfl]
    rfl
  · exact Reachable.step
      (Reachable.step (Reachable.step Reachable.init (Step.toggle false _))
        (Step.genOk false 240 _ (by decide) (by norm_num)))
      (Step.ended false _)

/-- C9 (amended): invoking `stopAudio` on an already-idle controller raises
no exception, leaves `isPlaying` (still `false`), the coordinator slot and
every other controller unchanged, and resets `progressFraction` to 0; it is
a complete no-op exactly when progress is already 0 and no audio nodes or
scheduled frame linger. -/
theorem stop_on_idle_resets_progress (s : Sys ι) (i : ι)
    (hp : (s.ctrls i).isPlaying = false) :
    ((stopAudioS i s).ctrls i).isPlaying = false ∧
    (stopAudioS i s).activeStop = s.activeStop ∧
    ((stopAudioS i s).ctrls i).progress = 0 ∧
    (∀ k, k ≠ i → (stopAudioS i s).ctrls k = s.ctrls k) ∧
    ((s.ctrls i).progress = 0 → (s.ctrls i).sourceRef = false →
      (s.ctrls i).bgMusicRef = false → (s.ctrls i).rafRef = false →
      (stopAudioS i s).ctrls i = s.ctrls i) := by
  refine ⟨?_, rfl, ?_, ?_, ?_⟩
  · rw [stopAudioS_ctrls, if_pos rfl]
    rfl
  · rw [stopAudioS_ctrls, if_pos rfl]
    rfl
  · intro k hk
    rw [stopAudioS_ctrls, if_neg hk]
  · intro h1 h2 h3 h4
    rw [stopAudioS_ctrls, if_pos rfl]
    have hgen : ∀ c : Ctrl, c.isPlaying = false → c.progress = 0 → c.sourceRef = false →
        c.bgMusicRef = false → c.rafRef = false → stopAudioC c = c := by
      intro c c1 c2 c3 c4 c5
      cases c
      simp_all [stopAudioC]
    exact hgen _ hp h1 h2 h3 h4

/-- Witness for C9 (amended) at controller `false` of the initial state. -/
theorem stop_on_idle_resets_progress_witness :
    ((stopAudioS false (initSys Bool)).ctrls false).isPlaying = false ∧
    (stopAudioS false (initSys Bool)).activeStop = (initSys Bool).activeStop ∧
    ((stopAudioS false (initSys Bool)).ctrls false).progress = 0 ∧
    (∀ k, k ≠ false → (stopAudioS false (initSys Bool)).ctrls k = (initSys Bool).ctrls k) ∧
    (((initSys Bool).ctrls false).progress = 0 → ((initSys Bool).ctrls false).sourceRef = false →
      ((initSys Bool).ctrls false).bgMusicRef = false → ((initSys Bool).ctrls false).rafRef = false →
      (stopAudioS false (initSys Bool)).ctrls false = (initSys Bool).ctrls false) :=
  stop_on_idle_resets_progress _ false (by decide)

end NeuroViral
